import Mathlib

/-!
# Verification of the time-series model analysis and diagnostic tool

Shallow embedding of `src/tsdiag` (core.py, stationarity.py, invertibility.py).

Modelling conventions:
* Python floats are embedded as rationals (`ℚ`): every IEEE double is a rational
  number, and all the arithmetic performed by the repository's own code
  (negation, subtraction, comparison against `1 + 1e-10` and `0.1`,
  minimum, scaling by `0.95`/`0.9`) is modelled exactly.
* `numpy.roots` and the complex `abs` are external numerical routines; they are
  embedded as an oracle (`NumEnv`) constrained by the contract `NumEnvOK`:
  the number of returned roots equals the effective degree of the polynomial
  (numpy strips leading zeros of the highest-to-constant coefficient list),
  and for effective degree one the single root `-b/a` and its magnitude are
  exact.  Theorems quantify over every oracle satisfying the contract; the
  executable instance `envImpl` is used for concrete evaluations.
* Python dict keys that may be absent are embedded as `Option` fields; the
  value `None` is `Option.none`; `float('inf')` is `(⊤ : WithTop ℚ)`.
* Raised exceptions are embedded with `Except PyError`.
-/

namespace TSDiag

/-- Python-level errors raised by the tool (`TypeError` / `ValueError`). -/
inductive PyError where
  | typeError (m : String)
  | valueError (m : String)
deriving DecidableEq

/-- `str(e)` of a raised error: the message it carries. -/
def PyError.msg : PyError → String
  | .typeError m => m
  | .valueError m => m

instance exceptDecEq {ε α : Type} [DecidableEq ε] [DecidableEq α] :
    DecidableEq (Except ε α)
  | .error e, .error f =>
      if h : e = f then isTrue (by rw [h])
      else isFalse (fun hh => by cases hh; exact h rfl)
  | .error _, .ok _ => isFalse (fun hh => by cases hh)
  | .ok _, .error _ => isFalse (fun hh => by cases hh)
  | .ok a, .ok b =>
      if h : a = b then isTrue (by rw [h])
      else isFalse (fun hh => by cases hh; exact h rfl)

/-- A complex value as produced by the numerical routines (floats as rationals). -/
structure PyComplex where
  re : ℚ
  im : ℚ
deriving DecidableEq

/-- `RootInfo` dataclass of core.py. -/
structure RootInfo where
  value : PyComplex
  magnitude : ℚ
  is_outside_unit_circle : Bool
deriving DecidableEq

/-- `StationarityResult` dataclass of core.py. -/
structure StationarityResult where
  is_stationary : Bool
  roots : List RootInfo
  ar_coefficients : List ℚ
  characteristic_polynomial : List ℚ
  message : String
deriving DecidableEq

/-- `InvertibilityResult` dataclass of core.py. -/
structure InvertibilityResult where
  is_invertible : Bool
  roots : List RootInfo
  ma_coefficients : List ℚ
  characteristic_polynomial : List ℚ
  message : String
deriving DecidableEq

/-- The tolerance `1e-10` of `_compute_polynomial_roots`. -/
def unitTol : ℚ := 1 / 10 ^ 10

/-- The raw input accepted by `_validate_coefficients` and the module-level
functions.  A Python list may contain entries that `float()` cannot convert
(modelled by `none`); `ndarray` is a numeric numpy array; `tuple`, `str` and
`scalar` (any other object) are the remaining input shapes the code
distinguishes via `isinstance`. -/
inductive CoeffInput where
  | list (xs : List (Option ℚ))
  | ndarray (xs : List ℚ)
  | tuple (xs : List ℚ)
  | str (s : String)
  | scalar
deriving DecidableEq

/-- `[float(c) for c in coeffs]`: fails (raises) on the first entry that is not
convertible to a float. -/
def floatAll : List (Option ℚ) → Option (List ℚ)
  | [] => some []
  | none :: _ => none
  | some q :: xs => (floatAll xs).map (q :: ·)

/-- `_validate_coefficients` of core.py: `TypeError` unless the input is a
list or numpy array, `ValueError` when empty or containing a non-numeric
entry. -/
def _validate_coefficients (coefficients : CoeffInput) (name : String) :
    Except PyError (List ℚ) :=
  match coefficients with
  | .list xs =>
      if xs.length = 0 then .error (.valueError (name ++ "系数不能为空"))
      else
        match floatAll xs with
        | some coeffs => .ok coeffs
        | none => .error (.valueError (name ++ "系数必须都是数值"))
  | .ndarray xs =>
      if xs.length = 0 then .error (.valueError (name ++ "系数不能为空"))
      else .ok xs
  | _ => .error (.typeError (name ++ "系数必须是列表或numpy数组"))

/-- `_build_characteristic_polynomial` of core.py: `[1.0]` followed by the
(already signed) coefficients, constant term first. -/
def _build_characteristic_polynomial (coefficients : List ℚ) : List ℚ :=
  1 :: coefficients

/-- The oracle standing for the external numerical routines: `numpy.roots`
(on a highest-to-constant coefficient list) and the complex modulus `abs`. -/
structure NumEnv where
  np_roots : List ℚ → List PyComplex
  cabs : PyComplex → ℚ

/-- Number of roots `numpy.roots` returns on the coefficient list `p`
(highest degree first): numpy strips the leading zero coefficients and
returns one root per remaining degree (roots at zero coming from trailing
zeros included). -/
def npRootsCount (p : List ℚ) : ℕ :=
  let q := p.dropWhile (fun c => decide (c = 0))
  if q.isEmpty then 0 else q.length - 1

/-- Contract satisfied by the numerical oracle, matching the behaviour of
`numpy.roots` and `abs`:
* the returned list has one entry per effective degree (multiplicities kept,
  no deduplication);
* an effective degree-one polynomial `a·z + b` (after stripping leading
  zeros) has the exact single root `-b/a`;
* the modulus of a real value is its absolute value, and moduli are
  non-negative. -/
structure NumEnvOK (env : NumEnv) : Prop where
  roots_length : ∀ p, (env.np_roots p).length = npRootsCount p
  roots_deg1 : ∀ p a b, p.dropWhile (fun c => decide (c = 0)) = [a, b] →
    env.np_roots p = [⟨-b / a, 0⟩]
  abs_real : ∀ x : ℚ, env.cabs ⟨x, 0⟩ = |x|
  abs_nonneg : ∀ z, 0 ≤ env.cabs z

/-- `_compute_polynomial_roots` of core.py: empty for a length-≤1 coefficient
list, otherwise reverse the constant-to-highest list for numpy, compute the
roots, and tag each with its magnitude and the unit-circle flag
`magnitude > 1.0 + 1e-10`. -/
def _compute_polynomial_roots (env : NumEnv) (polynomial_coeffs : List ℚ) :
    List RootInfo :=
  if polynomial_coeffs.length ≤ 1 then []
  else
    let coeffs_for_numpy := polynomial_coeffs.reverse
    let roots := env.np_roots coeffs_for_numpy
    roots.map (fun root =>
      let magnitude := env.cabs root
      { value := root, magnitude := magnitude,
        is_outside_unit_circle := decide (magnitude > 1 + unitTol) })

/-- Construction of the `StationarityResult` from validated coefficients
(core.py lines 151–175). -/
def arResultOfCoeffs (env : NumEnv) (coeffs : List ℚ) : StationarityResult :=
  let negative_coeffs := coeffs.map (fun c => -c)
  let poly_coeffs := _build_characteristic_polynomial negative_coeffs
  let roots := _compute_polynomial_roots env poly_coeffs
  let is_stationary := roots.all (fun root => root.is_outside_unit_circle)
  let inside_count := roots.countP (fun root => !root.is_outside_unit_circle)
  { is_stationary := is_stationary, roots := roots, ar_coefficients := coeffs,
    characteristic_polynomial := poly_coeffs,
    message :=
      if is_stationary then "模型满足平稳性条件：所有特征根都在单位圆外"
      else "模型不满足平稳性条件：有" ++ toString inside_count ++ "个根在单位圆内或单位圆上" }

/-- `stationarity_check` of core.py. -/
def stationarity_check (env : NumEnv) (ar_coefficients : CoeffInput) :
    Except PyError StationarityResult :=
  (_validate_coefficients ar_coefficients "AR").map (arResultOfCoeffs env)

/-- Construction of the `InvertibilityResult` from validated coefficients
(core.py lines 201–224); the MA family keeps the coefficient signs. -/
def maResultOfCoeffs (env : NumEnv) (coeffs : List ℚ) : InvertibilityResult :=
  let poly_coeffs := _build_characteristic_polynomial coeffs
  let roots := _compute_polynomial_roots env poly_coeffs
  let is_invertible := roots.all (fun root => root.is_outside_unit_circle)
  let inside_count := roots.countP (fun root => !root.is_outside_unit_circle)
  { is_invertible := is_invertible, roots := roots, ma_coefficients := coeffs,
    characteristic_polynomial := poly_coeffs,
    message :=
      if is_invertible then "模型满足可逆性条件：所有特征根都在单位圆外"
      else "模型不满足可逆性条件：有" ++ toString inside_count ++ "个根在单位圆内或单位圆上" }

/-- `invertibility_check` of core.py. -/
def invertibility_check (env : NumEnv) (ma_coefficients : CoeffInput) :
    Except PyError InvertibilityResult :=
  (_validate_coefficients ma_coefficients "MA").map (maResultOfCoeffs env)

/-- Executable instance of the numerical oracle: exact for effective degree
≤ 1 (the only degrees the contract pins down); for higher degrees only the
root count is modelled. -/
def npRootsImpl (p : List ℚ) : List PyComplex :=
  match p.dropWhile (fun c => decide (c = 0)) with
  | [] => []
  | [_] => []
  | [a, b] => [⟨-b / a, 0⟩]
  | _ :: rest => rest.map (fun _ => ⟨0, 0⟩)

/-- Executable modulus: exact on real values. -/
def cabsImpl (z : PyComplex) : ℚ :=
  if z.im = 0 then |z.re| else 0

/-- The executable oracle used for concrete evaluations. -/
def envImpl : NumEnv := ⟨npRootsImpl, cabsImpl⟩

/-! ## String coefficient parsing (stationarity.py / invertibility.py) -/

/-- Value of a decimal digit character. -/
def digitVal (c : Char) : Option ℕ :=
  if c.isDigit then some (c.toNat - 48) else none

/-- Parse a (possibly empty) run of decimal digits; fails on any non-digit. -/
def allDigitsToNat (cs : List Char) : Option ℕ :=
  cs.foldl (fun acc c => do
    let n ← acc
    let d ← digitVal c
    return 10 * n + d) (some 0)

/-- Split at the first occurrence of `c`; `none` when `c` does not occur. -/
def splitOnChar (c : Char) : List Char → List Char × Option (List Char)
  | [] => ([], none)
  | x :: xs =>
    if x = c then ([], some xs)
    else
      let (a, b) := splitOnChar c xs
      (x :: a, b)

/-- Leading sign of a numeric literal. -/
def parseSign : List Char → ℚ × List Char
  | '+' :: cs => (1, cs)
  | '-' :: cs => (-1, cs)
  | cs => (1, cs)

/-- Mantissa `digits[.digits]` (either side of the dot may be empty, not
both). -/
def parseMantissa (cs : List Char) : Option ℚ :=
  let (ip, fp) := splitOnChar '.' cs
  match fp with
  | none =>
      if ip.isEmpty then none
      else (allDigitsToNat ip).map (fun n => (n : ℚ))
  | some f =>
      if ip.isEmpty && f.isEmpty then none
      else do
        let i ← allDigitsToNat ip
        let fv ← allDigitsToNat f
        return (i : ℚ) + (fv : ℚ) / 10 ^ f.length

/-- Exponent part: optional sign then a non-empty digit run. -/
def parseExp (cs : List Char) : Option ℤ :=
  match cs with
  | '+' :: ds => if ds.isEmpty then none else (allDigitsToNat ds).map Int.ofNat
  | '-' :: ds => if ds.isEmpty then none else (allDigitsToNat ds).map (fun n => -(n : ℤ))
  | ds => if ds.isEmpty then none else (allDigitsToNat ds).map Int.ofNat

/-- Python's `float()` on one token, restricted to finite decimal literals
(`[+-]?digits[.digits][eE[+-]digits]`); special values such as `inf`/`nan`
and underscore separators are outside the model. -/
def pyFloat (s : String) : Option ℚ :=
  let cs := s.data.map Char.toLower
  let (sign, cs) := parseSign cs
  let (mant, ex) := splitOnChar 'e' cs
  match ex with
  | none => (parseMantissa mant).map (fun m => sign * m)
  | some ecs => do
      let m ← parseMantissa mant
      let e ← parseExp ecs
      return sign * m * (10 : ℚ) ^ e

/-- A character on which string coefficients are split: the code replaces
commas by spaces and then splits on whitespace, so it splits exactly at
commas and whitespace. -/
def isSep (c : Char) : Bool := c = ',' || c.isWhitespace

/-- Accumulator-based tokenizer over the character list (structural
recursion; equivalent to replace-commas-then-split-then-drop-empties). -/
def tokenizeAux : List Char → List Char → List String
  | [], acc => if acc.isEmpty then [] else [String.mk acc.reverse]
  | c :: cs, acc =>
      if isSep c then
        (if acc.isEmpty then [] else [String.mk acc.reverse]) ++ tokenizeAux cs []
      else tokenizeAux cs (c :: acc)

/-- The tokenization performed on string input: replace commas by spaces,
split on whitespace, drop empty tokens. -/
def parseTokens (s : String) : List String :=
  tokenizeAux s.data []

/-- `[float(x) for x in tokens]`: fails on the first unparsable token. -/
def floatTokens : List String → Option (List ℚ)
  | [] => some []
  | t :: ts => do
      let q ← pyFloat t
      let qs ← floatTokens ts
      return q :: qs

/-- `check_ar_stationarity` of stationarity.py (the classify operation for
the AR family): string input is tokenized and parsed, then handed to the
core as a Python list of floats; every other input goes to the core
unchanged.  The `verbose` printing is I/O and outside the model. -/
def check_ar_stationarity (env : NumEnv) (ar_coefficients : CoeffInput) :
    Except PyError StationarityResult :=
  match ar_coefficients with
  | .str s =>
      match floatTokens (parseTokens s) with
      | some coeffs => stationarity_check env (.list (coeffs.map some))
      | none => .error (.valueError ("无法解析AR系数字符串 " ++ s))
  | input => stationarity_check env input

/-- `check_ma_invertibility` of invertibility.py (the classify operation for
the MA family). -/
def check_ma_invertibility (env : NumEnv) (ma_coefficients : CoeffInput) :
    Except PyError InvertibilityResult :=
  match ma_coefficients with
  | .str s =>
      match floatTokens (parseTokens s) with
      | some coeffs => invertibility_check env (.list (coeffs.map some))
      | none => .error (.valueError ("无法解析MA系数字符串 " ++ s))
  | input => invertibility_check env input

/-! ## Margin analysis -/

/-- The three risk tiers. -/
inductive RiskLevel where
  | low
  | medium
  | high
deriving DecidableEq

/-- The dictionary returned by `analyze_ar_stability_margin`; `⊤` models
`float('inf')`, the `all_distances` key is absent in the no-roots case. -/
structure MarginReportAR where
  min_distance_to_unit_circle : WithTop ℚ
  closest_root : Option RootInfo
  stability_margin : WithTop ℚ
  risk_level : RiskLevel
  all_distances : Option (List ℚ)
deriving DecidableEq

/-- Body of `analyze_ar_stability_margin` (stationarity.py lines 80–110),
as a function of the already computed `StationarityResult`. -/
def marginOfARResult (result : StationarityResult) : MarginReportAR :=
  match result.roots with
  | [] =>
      { min_distance_to_unit_circle := ⊤, closest_root := none,
        stability_margin := ⊤, risk_level := .low, all_distances := none }
  | r :: rs =>
      let distance := fun (root : RootInfo) => root.magnitude - 1
      let distances := (r :: rs).map distance
      let min_distance := (rs.map distance).foldl min (distance r)
      let closest_root_idx := distances.findIdx (fun d => decide (d = min_distance))
      let closest_root := (r :: rs).get? closest_root_idx
      let risk_level :=
        if min_distance ≤ 0 then RiskLevel.high
        else if min_distance < 1 / 10 then RiskLevel.medium
        else RiskLevel.low
      { min_distance_to_unit_circle := (min_distance : WithTop ℚ),
        closest_root := closest_root,
        stability_margin := (min_distance : WithTop ℚ),
        risk_level := risk_level, all_distances := some distances }

/-- `analyze_ar_stability_margin` of stationarity.py (the marginReport
operation for the AR family): note the raw input goes straight to the core
check, with no string handling. -/
def analyze_ar_stability_margin (env : NumEnv) (ar_coefficients : CoeffInput) :
    Except PyError MarginReportAR :=
  (stationarity_check env ar_coefficients).map marginOfARResult

/-- The dictionary returned by `analyze_ma_invertibility_margin`. -/
structure MarginReportMA where
  min_distance_to_unit_circle : WithTop ℚ
  closest_root : Option RootInfo
  invertibility_margin : WithTop ℚ
  risk_level : RiskLevel
  all_distances : Option (List ℚ)
deriving DecidableEq

/-- Body of `analyze_ma_invertibility_margin` (invertibility.py lines
80–110). -/
def marginOfMAResult (result : InvertibilityResult) : MarginReportMA :=
  match result.roots with
  | [] =>
      { min_distance_to_unit_circle := ⊤, closest_root := none,
        invertibility_margin := ⊤, risk_level := .low, all_distances := none }
  | r :: rs =>
      let distance := fun (root : RootInfo) => root.magnitude - 1
      let distances := (r :: rs).map distance
      let min_distance := (rs.map distance).foldl min (distance r)
      let closest_root_idx := distances.findIdx (fun d => decide (d = min_distance))
      let closest_root := (r :: rs).get? closest_root_idx
      let risk_level :=
        if min_distance ≤ 0 then RiskLevel.high
        else if min_distance < 1 / 10 then RiskLevel.medium
        else RiskLevel.low
      { min_distance_to_unit_circle := (min_distance : WithTop ℚ),
        closest_root := closest_root,
        invertibility_margin := (min_distance : WithTop ℚ),
        risk_level := risk_level, all_distances := some distances }

/-- `analyze_ma_invertibility_margin` of invertibility.py. -/
def analyze_ma_invertibility_margin (env : NumEnv) (ma_coefficients : CoeffInput) :
    Except PyError MarginReportMA :=
  (invertibility_check env ma_coefficients).map marginOfMAResult

/-! ## Suggestion engine -/

/-- `numpy.sign`. -/
def npSign (x : ℚ) : ℚ := if 0 < x then 1 else if x < 0 then -1 else 0

/-- The dictionary returned by `suggest_ar_modifications`; the
`suggested_coefficients` key is absent (`none`) when no deterministic
heuristic applies. -/
structure SuggestionReportAR where
  is_modification_needed : Bool
  original_coefficients : List ℚ
  suggestions : List String
  suggested_coefficients : Option (List ℚ)
deriving DecidableEq

/-- Body of `suggest_ar_modifications` (stationarity.py lines 113–154) as a
function of the recomputed `StationarityResult`; the `:.3f` float formatting
inside messages is abbreviated to `toString`. -/
def suggestOfARResult (result : StationarityResult) : SuggestionReportAR :=
  if result.is_stationary then
    { is_modification_needed := false,
      original_coefficients := result.ar_coefficients,
      suggestions := ["模型已经满足平稳性条件，无需修改。"],
      suggested_coefficients := none }
  else
    let problematic_roots := result.roots.filter (fun root => !root.is_outside_unit_circle)
    let s1 := "发现" ++ toString problematic_roots.length ++ "个问题根（在单位圆内或单位圆上）"
    if result.ar_coefficients.length = 1 then
      let coeff := result.ar_coefficients.headI
      if 1 ≤ |coeff| then
        let new_coeff := 95 / 100 * npSign coeff
        { is_modification_needed := true,
          original_coefficients := result.ar_coefficients,
          suggestions := [s1, "建议将AR(1)系数调整为" ++ toString new_coeff],
          suggested_coefficients := some [new_coeff] }
      else
        { is_modification_needed := true,
          original_coefficients := result.ar_coefficients,
          suggestions := [s1],
          suggested_coefficients := none }
    else
      let scale_factor : ℚ := 9 / 10
      let scaled_coeffs := result.ar_coefficients.map (fun c => c * scale_factor)
      { is_modification_needed := true,
        original_coefficients := result.ar_coefficients,
        suggestions := [s1, "建议将所有系数乘以" ++ toString scale_factor ++ "以确保平稳性"],
        suggested_coefficients := some scaled_coeffs }

/-- `suggest_ar_modifications` of stationarity.py (the suggest operation for
the AR family). -/
def suggest_ar_modifications (env : NumEnv) (ar_coefficients : CoeffInput) :
    Except PyError SuggestionReportAR :=
  (stationarity_check env ar_coefficients).map suggestOfARResult

/-- The dictionary returned by `suggest_ma_modifications`; the
`suggested_coefficients` key is absent (`none`) when no deterministic
heuristic applies. -/
structure SuggestionReportMA where
  is_modification_needed : Bool
  original_coefficients : List ℚ
  suggestions : List String
  suggested_coefficients : Option (List ℚ)
deriving DecidableEq

/-- Body of `suggest_ma_modifications` (invertibility.py lines 113–154) as a
function of the recomputed `InvertibilityResult`; the `:.3f` float
formatting inside messages is abbreviated to `toString`. -/
def suggestOfMAResult (result : InvertibilityResult) : SuggestionReportMA :=
  if result.is_invertible then
    { is_modification_needed := false,
      original_coefficients := result.ma_coefficients,
      suggestions := ["模型已经满足可逆性条件，无需修改。"],
      suggested_coefficients := none }
  else
    let problematic_roots := result.roots.filter (fun root => !root.is_outside_unit_circle)
    let s1 := "发现" ++ toString problematic_roots.length ++ "个问题根（在单位圆内或单位圆上）"
    if result.ma_coefficients.length = 1 then
      let coeff := result.ma_coefficients.headI
      if 1 ≤ |coeff| then
        let new_coeff := 95 / 100 * npSign coeff
        { is_modification_needed := true,
          original_coefficients := result.ma_coefficients,
          suggestions := [s1, "建议将MA(1)系数调整为" ++ toString new_coeff],
          suggested_coefficients := some [new_coeff] }
      else
        { is_modification_needed := true,
          original_coefficients := result.ma_coefficients,
          suggestions := [s1],
          suggested_coefficients := none }
    else
      let scale_factor : ℚ := 9 / 10
      let scaled_coeffs := result.ma_coefficients.map (fun c => c * scale_factor)
      { is_modification_needed := true,
        original_coefficients := result.ma_coefficients,
        suggestions := [s1, "建议将所有系数乘以" ++ toString scale_factor ++ "以确保可逆性"],
        suggested_coefficients := some scaled_coeffs }

/-- `suggest_ma_modifications` of invertibility.py (the suggest operation
for the MA family). -/
def suggest_ma_modifications (env : NumEnv) (ma_coefficients : CoeffInput) :
    Except PyError SuggestionReportMA :=
  (invertibility_check env ma_coefficients).map suggestOfMAResult

/-! ## Batch layer -/

/-- A per-model report entry of `batch_stationarity_check`; keys absent in
the error branch are `none`. -/
structure BatchEntryAR where
  model_name : String
  model_index : ℕ
  coefficients : Option (List ℚ)
  is_stationary : Bool
  num_roots : Option ℕ
  stability_margin : Option (WithTop ℚ)
  risk_level : Option RiskLevel
  error : Option String
  result : Option StationarityResult
deriving DecidableEq

/-- One iteration of the `batch_stationarity_check` loop: the success entry
when the per-item analysis returns, the error entry (verdict `False`,
coefficients `None`, message captured) when it raises. -/
def batchEntryAROf (i : ℕ) (name : String)
    (res : Except PyError StationarityResult) : BatchEntryAR :=
  match res with
  | .ok result =>
      let st := marginOfARResult result
      { model_name := name, model_index := i,
        coefficients := some result.ar_coefficients,
        is_stationary := result.is_stationary,
        num_roots := some result.roots.length,
        stability_margin := some st.stability_margin,
        risk_level := some st.risk_level,
        error := none, result := some result }
  | .error e =>
      { model_name := name, model_index := i, coefficients := none,
        is_stationary := false, num_roots := none, stability_margin := none,
        risk_level := none, error := some e.msg, result := none }

/-- The names `Model_1`, `Model_2`, … generated when no names are given. -/
def defaultNames (n : ℕ) : List String :=
  (List.range n).map (fun i => "Model_" ++ toString (i + 1))

/-- The `for i, (coeffs, name) in enumerate(zip(models, names))` loop of
`batch_stationarity_check`, with the running index made explicit. -/
def batchLoopAR (env : NumEnv) : ℕ → List CoeffInput → List String → List BatchEntryAR
  | _, [], _ => []
  | _, _ :: _, [] => []
  | i, coeffs :: ms, name :: ns =>
      batchEntryAROf i name (stationarity_check env coeffs) ::
        batchLoopAR env (i + 1) ms ns

/-- `batch_stationarity_check` of stationarity.py. -/
def batch_stationarity_check (env : NumEnv) (ar_models : List CoeffInput)
    (model_names : Option (List String)) : Except PyError (List BatchEntryAR) :=
  let names := model_names.getD (defaultNames ar_models.length)
  if names.length ≠ ar_models.length then
    .error (.valueError "模型名称数量必须与模型数量相同")
  else .ok (batchLoopAR env 0 ar_models names)

/-- A per-model report entry of `batch_invertibility_check`. -/
structure BatchEntryMA where
  model_name : String
  model_index : ℕ
  coefficients : Option (List ℚ)
  is_invertible : Bool
  num_roots : Option ℕ
  invertibility_margin : Option (WithTop ℚ)
  risk_level : Option RiskLevel
  error : Option String
  result : Option InvertibilityResult
deriving DecidableEq

/-- One iteration of the `batch_invertibility_check` loop. -/
def batchEntryMAOf (i : ℕ) (name : String)
    (res : Except PyError InvertibilityResult) : BatchEntryMA :=
  match res with
  | .ok result =>
      let st := marginOfMAResult result
      { model_name := name, model_index := i,
        coefficients := some result.ma_coefficients,
        is_invertible := result.is_invertible,
        num_roots := some result.roots.length,
        invertibility_margin := some st.invertibility_margin,
        risk_level := some st.risk_level,
        error := none, result := some result }
  | .error e =>
      { model_name := name, model_index := i, coefficients := none,
        is_invertible := false, num_roots := none, invertibility_margin := none,
        risk_level := none, error := some e.msg, result := none }

/-- The enumeration loop of `batch_invertibility_check`. -/
def batchLoopMA (env : NumEnv) : ℕ → List CoeffInput → List String → List BatchEntryMA
  | _, [], _ => []
  | _, _ :: _, [] => []
  | i, coeffs :: ms, name :: ns =>
      batchEntryMAOf i name (invertibility_check env coeffs) ::
        batchLoopMA env (i + 1) ms ns

/-- `batch_invertibility_check` of invertibility.py. -/
def batch_invertibility_check (env : NumEnv) (ma_models : List CoeffInput)
    (model_names : Option (List String)) : Except PyError (List BatchEntryMA) :=
  let names := model_names.getD (defaultNames ma_models.length)
  if names.length ≠ ma_models.length then
    .error (.valueError "模型名称数量必须与模型数量相同")
  else .ok (batchLoopMA env 0 ma_models names)

/-! ## Comparison layer (`compare_ma_models`) -/

/-- The sort key `x['invertibility_margin']`; only applied to entries that
carry the key. -/
def maKey (e : BatchEntryMA) : WithTop ℚ := e.invertibility_margin.getD ⊤

/-- Descending-margin order used by `valid_results.sort(key=..., reverse=True)`:
`a` may be placed before `b` exactly when its margin is ≥ `b`'s. -/
def maDesc (a b : BatchEntryMA) : Prop := maKey b ≤ maKey a

instance : DecidableRel maDesc :=
  fun a b => inferInstanceAs (Decidable (maKey b ≤ maKey a))

instance : IsTotal BatchEntryMA maDesc :=
  ⟨fun a b => (le_total (maKey b) (maKey a)).imp id id⟩

instance : IsTrans BatchEntryMA maDesc :=
  ⟨fun _ _ _ hab hbc => le_trans hbc hab⟩

/-- `valid_results`: the entries that carry an `'invertibility_margin'` key. -/
def maValidResults (results : List BatchEntryMA) : List BatchEntryMA :=
  results.filter (fun r => r.invertibility_margin.isSome)

/-- The ranked list: Python's `list.sort` is a stable sort, and with
`reverse=True` equal keys keep their original order, which is exactly the
insertion sort under `maDesc`. -/
def maRank (results : List BatchEntryMA) : List BatchEntryMA :=
  List.insertionSort maDesc (maValidResults results)

/-- The comparison dictionary returned by `compare_ma_models`. -/
structure MAComparison where
  total_models : ℕ
  invertible_models : ℕ
  non_invertible_models : ℕ
  invertibility_rate : ℚ
  best_model : Option BatchEntryMA
  worst_model : Option BatchEntryMA
  all_results : List BatchEntryMA
deriving DecidableEq

/-- Body of `compare_ma_models` (invertibility.py lines 221–241) as a
function of the batch results. -/
def comparisonOfResults (results : List BatchEntryMA) : MAComparison :=
  let total_models := results.length
  let invertible_models := results.countP (fun r => r.is_invertible)
  let valid_sorted := maRank results
  { total_models := total_models,
    invertible_models := invertible_models,
    non_invertible_models := total_models - invertible_models,
    invertibility_rate :=
      if 0 < total_models then (invertible_models : ℚ) / total_models else 0,
    best_model := valid_sorted.head?,
    worst_model := valid_sorted.getLast?,
    all_results := results }

/-- `compare_ma_models` of invertibility.py. -/
def compare_ma_models (env : NumEnv) (ma_models : List CoeffInput)
    (model_names : Option (List String)) : Except PyError MAComparison :=
  (batch_invertibility_check env ma_models model_names).map comparisonOfResults

/-- Whether the raw input is a Python list or a numpy array — the only two
shapes `_validate_coefficients` accepts. -/
def isListOrArray : CoeffInput → Bool
  | .list _ => true
  | .ndarray _ => true
  | _ => false

/-! ## General lemmas about the embedding -/

lemma except_map_ok {ε α β : Type} {e : Except ε α} {f : α → β} {b : β} :
    e.map f = .ok b ↔ ∃ a, e = .ok a ∧ f a = b := by
  cases e with
  | error _ => simp [Except.map]
  | ok a =>
      simp only [Except.map]
      constructor
      · intro h
        exact ⟨a, rfl, by injection h⟩
      · rintro ⟨a', ha, hf⟩
        injection ha with ha
        subst ha
        exact congrArg Except.ok hf

lemma floatAll_map_some (qs : List ℚ) : floatAll (qs.map some) = some qs := by
  induction qs with
  | nil => rfl
  | cons q qs ih => simp [floatAll, ih]

lemma validate_list_some (qs : List ℚ) (name : String) :
    _validate_coefficients (.list (qs.map some)) name =
      if qs.length = 0 then .error (.valueError (name ++ "系数不能为空")) else .ok qs := by
  by_cases h : qs.length = 0
  · simp [_validate_coefficients, h]
  · simp [_validate_coefficients, h, floatAll_map_some]

lemma stationarity_ok_iff {env : NumEnv} {input : CoeffInput} {r : StationarityResult} :
    stationarity_check env input = .ok r ↔
      ∃ coeffs, _validate_coefficients input "AR" = .ok coeffs ∧ arResultOfCoeffs env coeffs = r := by
  simp [stationarity_check, except_map_ok]

lemma invertibility_ok_iff {env : NumEnv} {input : CoeffInput} {r : InvertibilityResult} :
    invertibility_check env input = .ok r ↔
      ∃ coeffs, _validate_coefficients input "MA" = .ok coeffs ∧ maResultOfCoeffs env coeffs = r := by
  simp [invertibility_check, except_map_ok]

lemma arResult_is_stationary (env : NumEnv) (coeffs : List ℚ) :
    (arResultOfCoeffs env coeffs).is_stationary =
      (arResultOfCoeffs env coeffs).roots.all (fun root => root.is_outside_unit_circle) := rfl

lemma arResult_roots (env : NumEnv) (coeffs : List ℚ) :
    (arResultOfCoeffs env coeffs).roots =
      _compute_polynomial_roots env (1 :: coeffs.map (fun c => -c)) := rfl

lemma arResult_coeffs (env : NumEnv) (coeffs : List ℚ) :
    (arResultOfCoeffs env coeffs).ar_coefficients = coeffs := rfl

lemma maResult_is_invertible (env : NumEnv) (coeffs : List ℚ) :
    (maResultOfCoeffs env coeffs).is_invertible =
      (maResultOfCoeffs env coeffs).roots.all (fun root => root.is_outside_unit_circle) := rfl

lemma maResult_roots (env : NumEnv) (coeffs : List ℚ) :
    (maResultOfCoeffs env coeffs).roots =
      _compute_polynomial_roots env (1 :: coeffs) := rfl

lemma maResult_coeffs (env : NumEnv) (coeffs : List ℚ) :
    (maResultOfCoeffs env coeffs).ma_coefficients = coeffs := rfl

/-- Every root produced by the root classifier carries the flag computed by
the tolerance rule from its own magnitude. -/
lemma mem_compute_roots_flag {env : NumEnv} {p : List ℚ} {root : RootInfo}
    (h : root ∈ _compute_polynomial_roots env p) :
    root.is_outside_unit_circle = decide (root.magnitude > 1 + unitTol) := by
  unfold _compute_polynomial_roots at h
  by_cases hlen : p.length ≤ 1
  · simp [hlen] at h
  · simp only [if_neg hlen, List.mem_map] at h
    obtain ⟨z, _, hz⟩ := h
    subst hz
    rfl

lemma unitTol_pos : (0 : ℚ) < unitTol := by norm_num [unitTol]

/-! ## Claim C1 -/

/-- C1: for every valid coefficient vector and family (AR or MA), the
classification verdict (`is_stationary` / `is_invertible`) is true iff every
returned root has its outside-unit-circle flag set (vacuously true with zero
roots), a root's flag is set exactly when its magnitude is strictly greater
than `1 + 1e-10`, and a root of magnitude exactly `1` is classified NOT
outside and forces the verdict to be false. -/
theorem claim_C1_verdict_iff_all_roots_outside (env : NumEnv) (input : CoeffInput) :
    (∀ r, stationarity_check env input = .ok r →
      ((r.is_stationary = true ↔ ∀ root ∈ r.roots, root.is_outside_unit_circle = true) ∧
       (∀ root ∈ r.roots, (root.is_outside_unit_circle = true ↔ root.magnitude > 1 + unitTol)) ∧
       (∀ root ∈ r.roots, root.magnitude = 1 →
          root.is_outside_unit_circle = false ∧ r.is_stationary = false))) ∧
    (∀ r, invertibility_check env input = .ok r →
      ((r.is_invertible = true ↔ ∀ root ∈ r.roots, root.is_outside_unit_circle = true) ∧
       (∀ root ∈ r.roots, (root.is_outside_unit_circle = true ↔ root.magnitude > 1 + unitTol)) ∧
       (∀ root ∈ r.roots, root.magnitude = 1 →
          root.is_outside_unit_circle = false ∧ r.is_invertible = false))) := by
  have flag_iff : ∀ (p : List ℚ) (root : RootInfo),
      root ∈ _compute_polynomial_roots env p →
      (root.is_outside_unit_circle = true ↔ root.magnitude > 1 + unitTol) := by
    intro p root h
    rw [mem_compute_roots_flag h]
    exact decide_eq_true_iff
  have one_not_outside : ¬ ((1 : ℚ) > 1 + unitTol) := by
    have := unitTol_pos
    intro h
    linarith
  constructor
  · intro r hr
    obtain ⟨coeffs, _, hres⟩ := stationarity_ok_iff.mp hr
    subst hres
    set p := 1 :: coeffs.map (fun c => -c) with hp
    have hall : (arResultOfCoeffs env coeffs).is_stationary =
        (arResultOfCoeffs env coeffs).roots.all (fun root => root.is_outside_unit_circle) := rfl
    have hroots : (arResultOfCoeffs env coeffs).roots = _compute_polynomial_roots env p := rfl
    refine ⟨?_, ?_, ?_⟩
    · rw [hall, List.all_eq_true]
    · intro root hm
      exact flag_iff p root (by rw [← hroots]; exact hm)
    · intro root hm hmag
      have hflag : root.is_outside_unit_circle = false := by
        have := flag_iff p root (by rw [← hroots]; exact hm)
        rw [hmag] at this
        cases hb : root.is_outside_unit_circle
        · rfl
        · exact absurd (this.mp hb) one_not_outside
      refine ⟨hflag, ?_⟩
      rw [hall]
      cases hb : (arResultOfCoeffs env coeffs).roots.all (fun root => root.is_outside_unit_circle)
      · rfl
      · rw [List.all_eq_true] at hb
        rw [hb root hm] at hflag
        exact absurd hflag (by simp)
  · intro r hr
    obtain ⟨coeffs, _, hres⟩ := invertibility_ok_iff.mp hr
    subst hres
    set p := (1 :: coeffs : List ℚ) with hp
    have hall : (maResultOfCoeffs env coeffs).is_invertible =
        (maResultOfCoeffs env coeffs).roots.all (fun root => root.is_outside_unit_circle) := rfl
    have hroots : (maResultOfCoeffs env coeffs).roots = _compute_polynomial_roots env p := rfl
    refine ⟨?_, ?_, ?_⟩
    · rw [hall, List.all_eq_true]
    · intro root hm
      exact flag_iff p root (by rw [← hroots]; exact hm)
    · intro root hm hmag
      have hflag : root.is_outside_unit_circle = false := by
        have := flag_iff p root (by rw [← hroots]; exact hm)
        rw [hmag] at this
        cases hb : root.is_outside_unit_circle
        · rfl
        · exact absurd (this.mp hb) one_not_outside
      refine ⟨hflag, ?_⟩
      rw [hall]
      cases hb : (maResultOfCoeffs env coeffs).roots.all (fun root => root.is_outside_unit_circle)
      · rfl
      · rw [List.all_eq_true] at hb
        rw [hb root hm] at hflag
        exact absurd hflag (by simp)

/-- Witness for C1 at the concrete AR input `[0.5]` with the executable
oracle. -/
theorem claim_C1_verdict_iff_all_roots_outside_witness :
    ((arResultOfCoeffs envImpl [1/2]).is_stationary = true ↔
      ∀ root ∈ (arResultOfCoeffs envImpl [1/2]).roots, root.is_outside_unit_circle = true) ∧
    (∀ root ∈ (arResultOfCoeffs envImpl [1/2]).roots,
      (root.is_outside_unit_circle = true ↔ root.magnitude > 1 + unitTol)) ∧
    (∀ root ∈ (arResultOfCoeffs envImpl [1/2]).roots, root.magnitude = 1 →
      root.is_outside_unit_circle = false ∧ (arResultOfCoeffs envImpl [1/2]).is_stationary = false) :=
  (claim_C1_verdict_iff_all_roots_outside envImpl (.list [some (1/2)])).1
    (arResultOfCoeffs envImpl [1/2]) rfl

/-! ## The executable oracle satisfies the contract -/

lemma npRootsImpl_length (p : List ℚ) : (npRootsImpl p).length = npRootsCount p := by
  unfold npRootsImpl npRootsCount
  rcases h : p.dropWhile (fun c => decide (c = 0)) with _ | ⟨a, _ | ⟨b, _ | ⟨c, rest⟩⟩⟩ <;>
    simp [h]

lemma envImpl_ok : NumEnvOK envImpl := by
  refine ⟨npRootsImpl_length, ?_, ?_, ?_⟩
  · intro p a b h
    show npRootsImpl p = _
    unfold npRootsImpl
    rw [h]
  · intro x
    simp [envImpl, cabsImpl]
  · intro z
    by_cases h : z.im = 0 <;> simp [envImpl, cabsImpl, h, abs_nonneg]

/-! ## Root-count lemmas (numpy strips leading zeros) -/

lemma compute_roots_length (env : NumEnv) (hok : NumEnvOK env) (p : List ℚ) :
    (_compute_polynomial_roots env p).length =
      if p.length ≤ 1 then 0 else npRootsCount p.reverse := by
  unfold _compute_polynomial_roots
  by_cases h : p.length ≤ 1
  · simp [h]
  · simp [h, hok.roots_length]

lemma npRootsCount_cons_ne (c : ℚ) (t : List ℚ) (hc : c ≠ 0) :
    npRootsCount (c :: t) = t.length := by
  simp [npRootsCount, List.dropWhile_cons, hc]

/-- When the highest-degree coefficient is nonzero, the root count is the
full degree. -/
lemma roots_length_append (env : NumEnv) (hok : NumEnvOK env) (xs : List ℚ) (c : ℚ)
    (hc : c ≠ 0) :
    (_compute_polynomial_roots env (1 :: (xs ++ [c]))).length = xs.length + 1 := by
  rw [compute_roots_length env hok]
  have h2 : ¬ ((1 :: (xs ++ [c]) : List ℚ).length ≤ 1) := by simp
  rw [if_neg h2]
  have hrev : (1 :: (xs ++ [c]) : List ℚ).reverse = c :: (xs.reverse ++ [1]) := by simp
  rw [hrev, npRootsCount_cons_ne c _ hc]
  simp

/-! ## Claim C2 (corrected) -/

/-- Counterexample to C2 as stated: the validated coefficient vector `[0.0]`
has length 1, but classification returns zero roots (numpy strips the
leading zero of the reversed characteristic polynomial `1 + 0·z`); likewise
the length-2 characteristic polynomial `[1, 0]` yields 0 roots, not L−1 = 1. -/
theorem claim_C2_counterexample :
    (stationarity_check envImpl (.list [some 0])).map (fun r => r.roots.length) = .ok 0 ∧
    (_compute_polynomial_roots envImpl [1, 0]).length = 0 ∧ (0 : ℕ) ≠ 1 := by
  refine ⟨by with_unfolding_all decide, by with_unfolding_all decide, by decide⟩

/-- C2 as amended: the root solver returns no roots for polynomials of
length ≤ 1, and for length ≥ 2 it returns exactly `npRootsCount p.reverse`
roots — the effective degree after numpy strips the zero coefficients at the
highest-degree end (repeated roots still count separately, so this is L−1
exactly when the highest-degree coefficient is nonzero).  Consequently a
validated coefficient vector of length n yields exactly n roots whenever its
highest-lag coefficient is nonzero (both families), and can yield fewer when
that coefficient is zero. -/
theorem claim_C2_root_count (env : NumEnv) (hok : NumEnvOK env) :
    (∀ p : List ℚ, p.length ≤ 1 → _compute_polynomial_roots env p = []) ∧
    (∀ p : List ℚ, 2 ≤ p.length →
      (_compute_polynomial_roots env p).length = npRootsCount p.reverse) ∧
    (∀ (q : List ℚ) (c : ℚ), c ≠ 0 →
      ∀ r, stationarity_check env (.list ((q ++ [c]).map some)) = .ok r →
        r.roots.length = (q ++ [c]).length) ∧
    (∀ (q : List ℚ) (c : ℚ), c ≠ 0 →
      ∀ r, invertibility_check env (.list ((q ++ [c]).map some)) = .ok r →
        r.roots.length = (q ++ [c]).length) := by
  refine ⟨?_, ?_, ?_, ?_⟩
  · intro p hp
    unfold _compute_polynomial_roots
    rw [if_pos hp]
  · intro p hp
    rw [compute_roots_length env hok, if_neg (by omega)]
  · intro q c hc r hr
    obtain ⟨coeffs, hval, hres⟩ := stationarity_ok_iff.mp hr
    rw [validate_list_some] at hval
    rw [if_neg (by simp)] at hval
    injection hval with hval
    subst hval
    subst hres
    have hroots : (arResultOfCoeffs env (q ++ [c])).roots =
        _compute_polynomial_roots env (1 :: (q.map (fun x => -x) ++ [-c])) := by
      rw [arResult_roots]
      simp
    rw [hroots, roots_length_append env hok _ _ (neg_ne_zero.mpr hc)]
    simp
  · intro q c hc r hr
    obtain ⟨coeffs, hval, hres⟩ := invertibility_ok_iff.mp hr
    rw [validate_list_some] at hval
    rw [if_neg (by simp)] at hval
    injection hval with hval
    subst hval
    subst hres
    have hroots : (maResultOfCoeffs env (q ++ [c])).roots =
        _compute_polynomial_roots env (1 :: (q ++ [c])) := maResult_roots env _
    have hassoc : (1 :: (q ++ [c]) : List ℚ) = 1 :: (q ++ [c]) := rfl
    rw [hroots, roots_length_append env hok q c hc]
    simp

/-- Witness for the amended C2: with the executable oracle, `[0.5]` (nonzero
highest-lag coefficient) yields exactly one root, and a length-1 polynomial
yields none. -/
theorem claim_C2_root_count_witness :
    _compute_polynomial_roots envImpl [1] = [] ∧
    (arResultOfCoeffs envImpl [(1 : ℚ)/2]).roots.length = 1 :=
  ⟨(claim_C2_root_count envImpl envImpl_ok).1 [1] (by decide),
   by
    have h := (claim_C2_root_count envImpl envImpl_ok).2.2.1 [] (1/2) (by norm_num)
      (arResultOfCoeffs envImpl [(1 : ℚ)/2]) rfl
    simpa using h⟩

/-! ## Claim C3 (corrected) -/

/-- Counterexample to C3 as stated: a tuple of floats — a sequence of
numerics — IS rejected with a type error by the validator (so by all four
operations), and a delimited string passed to the marginReport operation is
also rejected with a type error instead of being analyzed. -/
theorem claim_C3_counterexample :
    stationarity_check envImpl (.tuple [1/2, 3/10]) =
      .error (.typeError "AR系数必须是列表或numpy数组") ∧
    analyze_ar_stability_margin envImpl (.str "0.5") =
      .error (.typeError "AR系数必须是列表或numpy数组") := ⟨rfl, rfl⟩

/-- C3 as amended: only the classify wrappers (`check_ar_stationarity`,
`check_ma_invertibility`) accept a comma/whitespace-delimited string, and
they analyze it exactly as the equivalent list of numbers; every other
operation hands the raw input to the validator, which raises a type error
exactly when the input is not a Python list or numpy array — in particular
a tuple of floats, and a string reaching marginReport or suggest, are type
errors. -/
theorem claim_C3_input_handling (env : NumEnv) :
    (∀ s coeffs, floatTokens (parseTokens s) = some coeffs →
      check_ar_stationarity env (.str s) = stationarity_check env (.list (coeffs.map some)) ∧
      check_ma_invertibility env (.str s) = invertibility_check env (.list (coeffs.map some))) ∧
    (∀ input name, (∃ m, _validate_coefficients input name = .error (.typeError m)) ↔
      isListOrArray input = false) ∧
    (∀ s, analyze_ar_stability_margin env (.str s) =
        .error (.typeError "AR系数必须是列表或numpy数组") ∧
      suggest_ar_modifications env (.str s) =
        .error (.typeError "AR系数必须是列表或numpy数组")) ∧
    (∀ xs, stationarity_check env (.tuple xs) =
        .error (.typeError "AR系数必须是列表或numpy数组") ∧
      invertibility_check env (.tuple xs) =
        .error (.typeError "MA系数必须是列表或numpy数组")) := by
  refine ⟨?_, ?_, ?_, ?_⟩
  · intro s coeffs hparse
    constructor
    · show (match floatTokens (parseTokens s) with
        | some coeffs => stationarity_check env (.list (coeffs.map some))
        | none => .error (.valueError ("无法解析AR系数字符串 " ++ s))) = _
      rw [hparse]
    · show (match floatTokens (parseTokens s) with
        | some coeffs => invertibility_check env (.list (coeffs.map some))
        | none => .error (.valueError ("无法解析MA系数字符串 " ++ s))) = _
      rw [hparse]
  · intro input name
    cases input with
    | list xs =>
        simp only [isListOrArray]
        constructor
        · rintro ⟨m, hm⟩
          by_cases h : xs.length = 0
          · simp [_validate_coefficients, h] at hm
          · rcases hf : floatAll xs with _ | qs <;> simp [_validate_coefficients, h, hf] at hm
        · intro h
          exact absurd h (by simp)
    | ndarray xs =>
        simp only [isListOrArray]
        constructor
        · rintro ⟨m, hm⟩
          by_cases h : xs.length = 0 <;> simp [_validate_coefficients, h] at hm
        · intro h
          exact absurd h (by simp)
    | tuple xs => exact ⟨fun _ => rfl, fun _ => ⟨_, rfl⟩⟩
    | str s => exact ⟨fun _ => rfl, fun _ => ⟨_, rfl⟩⟩
    | scalar => exact ⟨fun _ => rfl, fun _ => ⟨_, rfl⟩⟩
  · intro s
    exact ⟨rfl, rfl⟩
  · intro xs
    exact ⟨rfl, rfl⟩

/-- Witness for the amended C3: the string `"0.5,-0.3"` is parsed and
analyzed exactly as the list `[0.5, -0.3]` by both classify wrappers. -/
theorem claim_C3_input_handling_witness :
    check_ar_stationarity envImpl (.str "0.5,-0.3") =
      stationarity_check envImpl (.list [some (1/2), some (-3/10)]) ∧
    check_ma_invertibility envImpl (.str "0.5,-0.3") =
      invertibility_check envImpl (.list [some (1/2), some (-3/10)]) :=
  (claim_C3_input_handling envImpl).1 "0.5,-0.3" [1/2, -3/10]
    (by with_unfolding_all decide)

/-! ## Degree-one root computations -/

lemma stationarity_singleton (env : NumEnv) (c : ℚ) :
    stationarity_check env (.list [some c]) = .ok (arResultOfCoeffs env [c]) := rfl

lemma invertibility_singleton (env : NumEnv) (c : ℚ) :
    invertibility_check env (.list [some c]) = .ok (maResultOfCoeffs env [c]) := rfl

lemma ar_roots_single (env : NumEnv) (hok : NumEnvOK env) (c : ℚ) (hc : c ≠ 0) :
    (arResultOfCoeffs env [c]).roots =
      [{ value := ⟨c⁻¹, 0⟩, magnitude := |c⁻¹|,
         is_outside_unit_circle := decide (|c⁻¹| > 1 + unitTol) }] := by
  rw [arResult_roots]
  show _compute_polynomial_roots env [1, -c] = _
  unfold _compute_polynomial_roots
  rw [if_neg (by simp)]
  have hrev : ([1, -c] : List ℚ).reverse = [-c, 1] := rfl
  have hdrop : ([-c, 1] : List ℚ).dropWhile (fun x => decide (x = 0)) = [-c, 1] := by
    rw [List.dropWhile_cons_of_neg]
    simp [neg_ne_zero.mpr hc]
  rw [hrev]
  have hroots := hok.roots_deg1 [-c, 1] (-c) 1 hdrop
  have hval : (-1 : ℚ) / -c = c⁻¹ := by
    rw [neg_div_neg_eq, one_div]
  rw [hval] at hroots
  simp only [hroots, List.map_cons, List.map_nil, hok.abs_real]

lemma ma_roots_single (env : NumEnv) (hok : NumEnvOK env) (c : ℚ) (hc : c ≠ 0) :
    (maResultOfCoeffs env [c]).roots =
      [{ value := ⟨-c⁻¹, 0⟩, magnitude := |c⁻¹|,
         is_outside_unit_circle := decide (|c⁻¹| > 1 + unitTol) }] := by
  rw [maResult_roots]
  show _compute_polynomial_roots env [1, c] = _
  unfold _compute_polynomial_roots
  rw [if_neg (by simp)]
  have hrev : ([1, c] : List ℚ).reverse = [c, 1] := rfl
  have hdrop : ([c, 1] : List ℚ).dropWhile (fun x => decide (x = 0)) = [c, 1] := by
    rw [List.dropWhile_cons_of_neg]
    simp [hc]
  rw [hrev]
  have hroots := hok.roots_deg1 [c, 1] c 1 hdrop
  have hval : (-1 : ℚ) / c = -c⁻¹ := by
    rw [neg_div, one_div]
  rw [hval] at hroots
  simp only [hroots, List.map_cons, List.map_nil, hok.abs_real, abs_neg]

/-! ## Claim C4 (corrected) -/

/-- Counterexample to C4 as stated: the coefficient `c = 1 − 1e-12`
satisfies `|c| < 1`, yet the order-1 AR model `[c]` classifies as NOT
stationary, because the root magnitude `1/c ≈ 1 + 1e-12` does not clear the
`1 + 1e-10` tolerance. -/
theorem claim_C4_counterexample :
    |(999999999999/1000000000000 : ℚ)| < 1 ∧
    (stationarity_check envImpl (.list [some (999999999999/1000000000000)])).map
      (fun r => r.is_stationary) = .ok false := by
  constructor
  · rw [abs_of_nonneg (by norm_num)]
    norm_num
  · with_unfolding_all decide

/-- C4 as amended: for every nonzero real `c` with `|c|·(1 + 1e-10) < 1`
(i.e. `|c| < 1/(1 + 1e-10)`, strictly inside the claimed `|c| < 1`),
classifying the order-1 model `[c]` in either family yields verdict true and
a single root of magnitude `1/|c|`; for every `c` with `|c| > 1` it yields
verdict false. -/
theorem claim_C4_order_one_classification (env : NumEnv) (hok : NumEnvOK env) (c : ℚ) :
    (∀ r, stationarity_check env (.list [some c]) = .ok r →
      ((c ≠ 0 ∧ |c| * (1 + unitTol) < 1) →
        r.is_stationary = true ∧ r.roots.map (fun root => root.magnitude) = [1 / |c|]) ∧
      (1 < |c| → r.is_stationary = false)) ∧
    (∀ r, invertibility_check env (.list [some c]) = .ok r →
      ((c ≠ 0 ∧ |c| * (1 + unitTol) < 1) →
        r.is_invertible = true ∧ r.roots.map (fun root => root.magnitude) = [1 / |c|]) ∧
      (1 < |c| → r.is_invertible = false)) := by
  have habs : ∀ hc : c ≠ 0, |c⁻¹| = 1 / |c| := fun hc => by
    rw [abs_inv, inv_eq_one_div]
  have hflag_true : ∀ hc : c ≠ 0, |c| * (1 + unitTol) < 1 →
      decide (|c⁻¹| > 1 + unitTol) = true := by
    intro hc hlt
    have hpos : 0 < |c| := abs_pos.mpr hc
    rw [decide_eq_true_eq, habs hc, gt_iff_lt, lt_div_iff₀ hpos]
    linarith [hlt]
  have hflag_false : 1 < |c| → decide (|c⁻¹| > 1 + unitTol) = false := by
    intro hgt
    have h1 : |c⁻¹| < 1 := by
      rw [abs_inv]
      exact inv_lt_one_of_one_lt₀ hgt
    have := unitTol_pos
    rw [decide_eq_false_iff_not]
    intro hcon
    rw [gt_iff_lt] at hcon
    linarith
  constructor
  · intro r hr
    rw [stationarity_singleton] at hr
    injection hr with hr
    subst hr
    constructor
    · rintro ⟨hc, hlt⟩
      rw [arResult_is_stationary, ar_roots_single env hok c hc]
      constructor
      · simp [hflag_true hc hlt]
      · simp [habs hc]
    · intro hgt
      have hc : c ≠ 0 := by
        intro h
        rw [h, abs_zero] at hgt
        exact absurd hgt (by norm_num)
      rw [arResult_is_stationary, ar_roots_single env hok c hc]
      simp [hflag_false hgt]
  · intro r hr
    rw [invertibility_singleton] at hr
    injection hr with hr
    subst hr
    constructor
    · rintro ⟨hc, hlt⟩
      rw [maResult_is_invertible, ma_roots_single env hok c hc]
      constructor
      · simp [hflag_true hc hlt]
      · simp [habs hc]
    · intro hgt
      have hc : c ≠ 0 := by
        intro h
        rw [h, abs_zero] at hgt
        exact absurd hgt (by norm_num)
      rw [maResult_is_invertible, ma_roots_single env hok c hc]
      simp [hflag_false hgt]

/-- Witness for the amended C4 at `c = 0.5` (AR branch: stationary with root
magnitude 2) and `c = 2` (MA branch: not invertible). -/
theorem claim_C4_order_one_classification_witness :
    ((arResultOfCoeffs envImpl [(1 : ℚ)/2]).is_stationary = true ∧
      (arResultOfCoeffs envImpl [(1 : ℚ)/2]).roots.map (fun root => root.magnitude) =
        [1 / |(1 : ℚ)/2|]) ∧
    (maResultOfCoeffs envImpl [(2 : ℚ)]).is_invertible = false :=
  ⟨((claim_C4_order_one_classification envImpl envImpl_ok (1/2)).1 _ rfl).1
      ⟨by norm_num, by rw [abs_of_nonneg (by norm_num)]; norm_num [unitTol]⟩,
   ((claim_C4_order_one_classification envImpl envImpl_ok 2).2 _ rfl).2 (by norm_num)⟩

/-! ## Claim C9 -/

/-- C9: for every real `c` and both families, the order-1 models `[c]` and
`[-c]` produce roots of identical magnitudes and an identical verdict. -/
theorem claim_C9_sign_invariance (env : NumEnv) (hok : NumEnvOK env) (c : ℚ) :
    (∃ r1 r2, stationarity_check env (.list [some c]) = .ok r1 ∧
      stationarity_check env (.list [some (-c)]) = .ok r2 ∧
      r1.roots.map (fun root => root.magnitude) = r2.roots.map (fun root => root.magnitude) ∧
      r1.is_stationary = r2.is_stationary) ∧
    (∃ r1 r2, invertibility_check env (.list [some c]) = .ok r1 ∧
      invertibility_check env (.list [some (-c)]) = .ok r2 ∧
      r1.roots.map (fun root => root.magnitude) = r2.roots.map (fun root => root.magnitude) ∧
      r1.is_invertible = r2.is_invertible) := by
  by_cases hc : c = 0
  · subst hc
    rw [neg_zero]
    exact ⟨⟨_, _, rfl, rfl, rfl, rfl⟩, ⟨_, _, rfl, rfl, rfl, rfl⟩⟩
  · have hcn : -c ≠ 0 := neg_ne_zero.mpr hc
    have habs : |(-c)⁻¹| = |c⁻¹| := by rw [inv_neg, abs_neg]
    constructor
    · refine ⟨arResultOfCoeffs env [c], arResultOfCoeffs env [-c], rfl, rfl, ?_, ?_⟩
      · rw [ar_roots_single env hok c hc, ar_roots_single env hok (-c) hcn, habs]
        simp
      · rw [arResult_is_stationary, arResult_is_stationary,
          ar_roots_single env hok c hc, ar_roots_single env hok (-c) hcn, habs]
        simp
    · refine ⟨maResultOfCoeffs env [c], maResultOfCoeffs env [-c], rfl, rfl, ?_, ?_⟩
      · rw [ma_roots_single env hok c hc, ma_roots_single env hok (-c) hcn, habs]
        simp
      · rw [maResult_is_invertible, maResult_is_invertible,
          ma_roots_single env hok c hc, ma_roots_single env hok (-c) hcn, habs]
        simp

/-- Witness for C9 at the concrete coefficient `c = 2` with the executable
oracle. -/
theorem claim_C9_sign_invariance_witness :
    (∃ r1 r2, stationarity_check envImpl (.list [some (2 : ℚ)]) = .ok r1 ∧
      stationarity_check envImpl (.list [some (-2 : ℚ)]) = .ok r2 ∧
      r1.roots.map (fun root => root.magnitude) = r2.roots.map (fun root => root.magnitude) ∧
      r1.is_stationary = r2.is_stationary) ∧
    (∃ r1 r2, invertibility_check envImpl (.list [some (2 : ℚ)]) = .ok r1 ∧
      invertibility_check envImpl (.list [some (-2 : ℚ)]) = .ok r2 ∧
      r1.roots.map (fun root => root.magnitude) = r2.roots.map (fun root => root.magnitude) ∧
      r1.is_invertible = r2.is_invertible) :=
  claim_C9_sign_invariance envImpl envImpl_ok 2

/-! ## Minimum / first-index lemmas for the margin analyzer -/

lemma foldl_min_le_init (d : ℚ) (ds : List ℚ) : ds.foldl min d ≤ d := by
  induction ds generalizing d with
  | nil => exact le_refl d
  | cons a t ih => exact le_trans (ih (min d a)) (min_le_left d a)

lemma foldl_min_le_mem {x : ℚ} {ds : List ℚ} (hx : x ∈ ds) (d : ℚ) :
    ds.foldl min d ≤ x := by
  induction ds generalizing d with
  | nil => cases hx
  | cons a t ih =>
      rw [List.foldl_cons]
      rcases List.mem_cons.mp hx with rfl | hx'
      · exact le_trans (foldl_min_le_init _ _) (min_le_right d x)
      · exact ih hx' (min d a)

lemma foldl_min_mem (d : ℚ) (ds : List ℚ) :
    ds.foldl min d = d ∨ ds.foldl min d ∈ ds := by
  induction ds generalizing d with
  | nil => exact Or.inl rfl
  | cons a t ih =>
      rw [List.foldl_cons]
      rcases ih (min d a) with h | h
      · rcases min_choice d a with h2 | h2
        · exact Or.inl (by rw [h, h2])
        · exact Or.inr (by rw [h, h2]; exact List.mem_cons_self a t)
      · exact Or.inr (List.mem_cons_of_mem a h)

lemma marginOfARResult_nil {r : StationarityResult} (h : r.roots = []) :
    marginOfARResult r =
      { min_distance_to_unit_circle := ⊤, closest_root := none,
        stability_margin := ⊤, risk_level := .low, all_distances := none } := by
  unfold marginOfARResult
  rw [h]

lemma head_foldl_min_mem (d : ℚ) (ds : List ℚ) :
    ds.foldl min d ∈ (d :: ds) ∧ ∀ x ∈ (d :: ds), ds.foldl min d ≤ x := by
  constructor
  · rcases foldl_min_mem d ds with h | h
    · rw [h]; exact List.mem_cons_self _ _
    · exact List.mem_cons_of_mem _ h
  · intro x hx
    rcases List.mem_cons.mp hx with rfl | hx'
    · exact foldl_min_le_init _ _
    · exact foldl_min_le_mem hx' d

/-- `list.index(m)` via `findIdx`: it returns the first position holding `m`. -/
lemma first_min_index (ds : List ℚ) (m : ℚ) (hmem : m ∈ ds) :
    ds.get? (ds.findIdx fun d => decide (d = m)) = some m ∧
    ∀ j < ds.findIdx (fun d => decide (d = m)), ds.get? j ≠ some m := by
  have hex : ∃ x ∈ ds, (fun d => decide (d = m)) x = true := ⟨m, hmem, by simp⟩
  have hlt : (ds.findIdx fun d => decide (d = m)) < ds.length :=
    List.findIdx_lt_length_of_exists hex
  constructor
  · rw [List.get?_eq_get hlt]
    have h2 := @List.findIdx_getElem _ (fun d => decide (d = m)) ds hlt
    simp only [decide_eq_true_eq] at h2
    simp [List.get_eq_getElem, h2]
  · intro j hj hcon
    have hjlen : j < ds.length := lt_trans hj hlt
    have hfalse := @List.not_of_lt_findIdx _ (fun d => decide (d = m)) ds j hj
    rw [List.get?_eq_get hjlen] at hcon
    injection hcon with hcon
    rw [List.get_eq_getElem] at hcon
    rw [hcon] at hfalse
    simp at hfalse

/-! ## Claim C5 -/

/-- C5: for every coefficient vector, the AR margin analysis reports — when
the classification yields no roots — margin `+∞`, risk low and no closest
root; otherwise margin = the minimum over roots of (magnitude − 1), closest
root = the first root (in solver output order) achieving that minimum, and
risk high when margin ≤ 0, medium when 0 < margin < 0.1, low when
margin ≥ 0.1. -/
theorem claim_C5_margin_analysis (env : NumEnv) (input : CoeffInput)
    (r : StationarityResult) (hr : stationarity_check env input = .ok r) :
    analyze_ar_stability_margin env input = .ok (marginOfARResult r) ∧
    (r.roots = [] →
      (marginOfARResult r).stability_margin = ⊤ ∧
      (marginOfARResult r).risk_level = .low ∧
      (marginOfARResult r).closest_root = none) ∧
    (r.roots ≠ [] →
      ∃ m : ℚ, (marginOfARResult r).stability_margin = (m : WithTop ℚ) ∧
        m ∈ r.roots.map (fun root => root.magnitude - 1) ∧
        (∀ d ∈ r.roots.map (fun root => root.magnitude - 1), m ≤ d) ∧
        (∃ i, (marginOfARResult r).closest_root = r.roots.get? i ∧
          (r.roots.map (fun root => root.magnitude - 1)).get? i = some m ∧
          ∀ j < i, (r.roots.map (fun root => root.magnitude - 1)).get? j ≠ some m) ∧
        (m ≤ 0 → (marginOfARResult r).risk_level = .high) ∧
        (0 < m → m < 1 / 10 → (marginOfARResult r).risk_level = .medium) ∧
        (1 / 10 ≤ m → (marginOfARResult r).risk_level = .low)) := by
  refine ⟨?_, ?_, ?_⟩
  · show (stationarity_check env input).map marginOfARResult = _
    rw [hr]
    rfl
  · intro h
    rw [marginOfARResult_nil h]
    exact ⟨rfl, rfl, rfl⟩
  · intro h
    rcases hroots : r.roots with _ | ⟨root, rest⟩
    · exact absurd hroots h
    have hmargin : marginOfARResult r =
        { min_distance_to_unit_circle :=
            (((rest.map (fun root => root.magnitude - 1)).foldl min
              (root.magnitude - 1) : ℚ) : WithTop ℚ),
          closest_root := (root :: rest).get?
            (((root :: rest).map (fun root => root.magnitude - 1)).findIdx
              (fun d => decide (d = (rest.map (fun root => root.magnitude - 1)).foldl min
                (root.magnitude - 1)))),
          stability_margin :=
            (((rest.map (fun root => root.magnitude - 1)).foldl min
              (root.magnitude - 1) : ℚ) : WithTop ℚ),
          risk_level :=
            if (rest.map (fun root => root.magnitude - 1)).foldl min
                (root.magnitude - 1) ≤ 0 then RiskLevel.high
            else if (rest.map (fun root => root.magnitude - 1)).foldl min
                (root.magnitude - 1) < 1 / 10 then RiskLevel.medium
            else RiskLevel.low,
          all_distances := some ((root :: rest).map (fun root => root.magnitude - 1)) } := by
      unfold marginOfARResult
      rw [hroots]
    refine ⟨(rest.map (fun root => root.magnitude - 1)).foldl min (root.magnitude - 1),
      ?_, ?_, ?_,
      ⟨((root :: rest).map (fun root => root.magnitude - 1)).findIdx
        (fun d => decide (d = (rest.map (fun root => root.magnitude - 1)).foldl min
          (root.magnitude - 1))), ?_, ?_, ?_⟩, ?_, ?_, ?_⟩
    · rw [hmargin]
    · rw [List.map_cons]
      exact (head_foldl_min_mem (root.magnitude - 1)
        (rest.map (fun root => root.magnitude - 1))).1
    · intro d hd
      rw [List.map_cons] at hd
      exact (head_foldl_min_mem (root.magnitude - 1)
        (rest.map (fun root => root.magnitude - 1))).2 d hd
    · rw [hmargin]
    · exact (first_min_index ((root :: rest).map (fun root => root.magnitude - 1)) _
        (by rw [List.map_cons]
            exact (head_foldl_min_mem (root.magnitude - 1)
              (rest.map (fun root => root.magnitude - 1))).1)).1
    · exact fun j hj => (first_min_index ((root :: rest).map (fun root => root.magnitude - 1)) _
        (by rw [List.map_cons]
            exact (head_foldl_min_mem (root.magnitude - 1)
              (rest.map (fun root => root.magnitude - 1))).1)).2 j hj
    · intro h0
      rw [hmargin]
      show (if (rest.map (fun root => root.magnitude - 1)).foldl min
          (root.magnitude - 1) ≤ 0 then RiskLevel.high
        else if (rest.map (fun root => root.magnitude - 1)).foldl min
          (root.magnitude - 1) < 1 / 10 then RiskLevel.medium
        else RiskLevel.low) = RiskLevel.high
      rw [if_pos h0]
    · intro h0 h10
      rw [hmargin]
      show (if (rest.map (fun root => root.magnitude - 1)).foldl min
          (root.magnitude - 1) ≤ 0 then RiskLevel.high
        else if (rest.map (fun root => root.magnitude - 1)).foldl min
          (root.magnitude - 1) < 1 / 10 then RiskLevel.medium
        else RiskLevel.low) = RiskLevel.medium
      rw [if_neg (not_le.mpr h0), if_pos h10]
    · intro h10
      rw [hmargin]
      show (if (rest.map (fun root => root.magnitude - 1)).foldl min
          (root.magnitude - 1) ≤ 0 then RiskLevel.high
        else if (rest.map (fun root => root.magnitude - 1)).foldl min
          (root.magnitude - 1) < 1 / 10 then RiskLevel.medium
        else RiskLevel.low) = RiskLevel.low
      rw [if_neg (by linarith), if_neg (not_lt.mpr h10)]

/-- Witness for C5 at the concrete AR input `[0.95]` with the executable
oracle. -/
theorem claim_C5_margin_analysis_witness :
    analyze_ar_stability_margin envImpl (.list [some (19/20)]) =
      .ok (marginOfARResult (arResultOfCoeffs envImpl [19/20])) ∧
    ((arResultOfCoeffs envImpl [19/20]).roots = [] →
      (marginOfARResult (arResultOfCoeffs envImpl [19/20])).stability_margin = ⊤ ∧
      (marginOfARResult (arResultOfCoeffs envImpl [19/20])).risk_level = .low ∧
      (marginOfARResult (arResultOfCoeffs envImpl [19/20])).closest_root = none) ∧
    ((arResultOfCoeffs envImpl [19/20]).roots ≠ [] →
      ∃ m : ℚ,
        (marginOfARResult (arResultOfCoeffs envImpl [19/20])).stability_margin =
          (m : WithTop ℚ) ∧
        m ∈ (arResultOfCoeffs envImpl [19/20]).roots.map (fun root => root.magnitude - 1) ∧
        (∀ d ∈ (arResultOfCoeffs envImpl [19/20]).roots.map (fun root => root.magnitude - 1),
          m ≤ d) ∧
        (∃ i, (marginOfARResult (arResultOfCoeffs envImpl [19/20])).closest_root =
            (arResultOfCoeffs envImpl [19/20]).roots.get? i ∧
          ((arResultOfCoeffs envImpl [19/20]).roots.map
            (fun root => root.magnitude - 1)).get? i = some m ∧
          ∀ j < i, ((arResultOfCoeffs envImpl [19/20]).roots.map
            (fun root => root.magnitude - 1)).get? j ≠ some m) ∧
        (m ≤ 0 →
          (marginOfARResult (arResultOfCoeffs envImpl [19/20])).risk_level = .high) ∧
        (0 < m → m < 1 / 10 →
          (marginOfARResult (arResultOfCoeffs envImpl [19/20])).risk_level = .medium) ∧
        (1 / 10 ≤ m →
          (marginOfARResult (arResultOfCoeffs envImpl [19/20])).risk_level = .low)) :=
  claim_C5_margin_analysis envImpl (.list [some (19/20)])
    (arResultOfCoeffs envImpl [19/20]) rfl

/-! ## Claim C6 -/

/-- C6: for every coefficient vector and both families, suggest reports
modification needed exactly when the recomputed classification verdict is
false; when the verdict holds no suggested coefficient vector is produced;
when it fails, an order-1 vector `[c]` with `|c| ≥ 1` gets the suggestion
`[0.95·sign(c)]` and a vector of length ≥ 2 gets every coefficient
multiplied by 0.9 (neither definition re-verifies the suggested vector — it
is returned as computed). -/
theorem claim_C6_suggestion_engine (env : NumEnv) (input : CoeffInput) :
    (∀ r, stationarity_check env input = .ok r →
      suggest_ar_modifications env input = .ok (suggestOfARResult r) ∧
      (suggestOfARResult r).is_modification_needed = !r.is_stationary ∧
      (r.is_stationary = true → (suggestOfARResult r).suggested_coefficients = none) ∧
      (r.is_stationary = false →
        (∀ c, r.ar_coefficients = [c] → 1 ≤ |c| →
          (suggestOfARResult r).suggested_coefficients = some [95 / 100 * npSign c]) ∧
        (2 ≤ r.ar_coefficients.length →
          (suggestOfARResult r).suggested_coefficients =
            some (r.ar_coefficients.map (fun c => c * (9 / 10)))))) ∧
    (∀ r, invertibility_check env input = .ok r →
      suggest_ma_modifications env input = .ok (suggestOfMAResult r) ∧
      (suggestOfMAResult r).is_modification_needed = !r.is_invertible ∧
      (r.is_invertible = true → (suggestOfMAResult r).suggested_coefficients = none) ∧
      (r.is_invertible = false →
        (∀ c, r.ma_coefficients = [c] → 1 ≤ |c| →
          (suggestOfMAResult r).suggested_coefficients = some [95 / 100 * npSign c]) ∧
        (2 ≤ r.ma_coefficients.length →
          (suggestOfMAResult r).suggested_coefficients =
            some (r.ma_coefficients.map (fun c => c * (9 / 10)))))) := by
  constructor
  · intro r hr
    refine ⟨?_, ?_, ?_, ?_⟩
    · show (stationarity_check env input).map suggestOfARResult = _
      rw [hr]
      rfl
    · unfold suggestOfARResult
      cases hb : r.is_stationary
      · rw [if_neg (by simp [hb])]
        split
        · by_cases hco : 1 ≤ |r.ar_coefficients.headI| <;> simp [hco]
        · rfl
      · rw [if_pos (by simp [hb])]
        rfl
    · intro hb
      simp [suggestOfARResult, hb]
    · intro hb
      constructor
      · intro c hcoef habs
        have hlen : r.ar_coefficients.length = 1 := by rw [hcoef]; rfl
        have hhead : r.ar_coefficients.headI = c := by rw [hcoef]; rfl
        simp [suggestOfARResult, hb, hlen, hhead, habs]
      · intro hlen2
        have hlen : r.ar_coefficients.length ≠ 1 := by omega
        simp [suggestOfARResult, hb, hlen]
  · intro r hr
    refine ⟨?_, ?_, ?_, ?_⟩
    · show (invertibility_check env input).map suggestOfMAResult = _
      rw [hr]
      rfl
    · unfold suggestOfMAResult
      cases hb : r.is_invertible
      · rw [if_neg (by simp [hb])]
        split
        · by_cases hco : 1 ≤ |r.ma_coefficients.headI| <;> simp [hco]
        · rfl
      · rw [if_pos (by simp [hb])]
        rfl
    · intro hb
      simp [suggestOfMAResult, hb]
    · intro hb
      constructor
      · intro c hcoef habs
        have hlen : r.ma_coefficients.length = 1 := by rw [hcoef]; rfl
        have hhead : r.ma_coefficients.headI = c := by rw [hcoef]; rfl
        simp [suggestOfMAResult, hb, hlen, hhead, habs]
      · intro hlen2
        have hlen : r.ma_coefficients.length ≠ 1 := by omega
        simp [suggestOfMAResult, hb, hlen]

/-- Witness for C6 at the concrete failing input `[2]` for both families:
each suggestion is the sign-preserving shrink `[0.95]`. -/
theorem claim_C6_suggestion_engine_witness :
    (suggest_ar_modifications envImpl (.list [some (2 : ℚ)]) =
      .ok (suggestOfARResult (arResultOfCoeffs envImpl [2])) ∧
    (suggestOfARResult (arResultOfCoeffs envImpl [2])).suggested_coefficients =
      some [95 / 100 * npSign 2]) ∧
    (suggest_ma_modifications envImpl (.list [some (2 : ℚ)]) =
      .ok (suggestOfMAResult (maResultOfCoeffs envImpl [2])) ∧
    (suggestOfMAResult (maResultOfCoeffs envImpl [2])).suggested_coefficients =
      some [95 / 100 * npSign 2]) :=
  ⟨⟨((claim_C6_suggestion_engine envImpl (.list [some (2 : ℚ)])).1
      (arResultOfCoeffs envImpl [2]) rfl).1,
    (((claim_C6_suggestion_engine envImpl (.list [some (2 : ℚ)])).1
      (arResultOfCoeffs envImpl [2]) rfl).2.2.2 (by with_unfolding_all decide)).1 2 rfl
      (by norm_num)⟩,
   ⟨((claim_C6_suggestion_engine envImpl (.list [some (2 : ℚ)])).2
      (maResultOfCoeffs envImpl [2]) rfl).1,
    (((claim_C6_suggestion_engine envImpl (.list [some (2 : ℚ)])).2
      (maResultOfCoeffs envImpl [2]) rfl).2.2.2 (by with_unfolding_all decide)).1 2 rfl
      (by norm_num)⟩⟩

/-! ## Batch loop lemmas -/

lemma batchLoopAR_length (env : NumEnv) :
    ∀ (j : ℕ) (ms : List CoeffInput) (ns : List String), ns.length = ms.length →
      (batchLoopAR env j ms ns).length = ms.length := by
  intro j ms
  induction ms generalizing j with
  | nil => intro ns _; cases ns <;> rfl
  | cons m ms' ih =>
      intro ns h
      cases ns with
      | nil => simp at h
      | cons n ns' =>
          simp only [List.length_cons] at h
          simp [batchLoopAR, ih (j + 1) ns' (by omega)]

lemma batchLoopAR_get?_eq (env : NumEnv) :
    ∀ (j i : ℕ) (ms : List CoeffInput) (ns : List String) (coeffs : CoeffInput) (name : String),
      ms.get? i = some coeffs → ns.get? i = some name →
      (batchLoopAR env j ms ns).get? i =
        some (batchEntryAROf (j + i) name (stationarity_check env coeffs)) := by
  intro j i ms
  induction ms generalizing i j with
  | nil => intro ns coeffs name hm; simp at hm
  | cons m ms' ih =>
      intro ns coeffs name hm hn
      cases ns with
      | nil => simp at hn
      | cons n ns' =>
          cases i with
          | zero =>
              injection hm with hm
              injection hn with hn
              subst hm
              subst hn
              simp [batchLoopAR]
          | succ i' =>
              simp only [List.get?_cons_succ] at hm hn
              have hrec := ih (j + 1) i' ns' coeffs name hm hn
              have hj : j + (i' + 1) = (j + 1) + i' := by omega
              simp only [batchLoopAR, List.get?_cons_succ, hrec, hj]

lemma batchLoopMA_length (env : NumEnv) :
    ∀ (j : ℕ) (ms : List CoeffInput) (ns : List String), ns.length = ms.length →
      (batchLoopMA env j ms ns).length = ms.length := by
  intro j ms
  induction ms generalizing j with
  | nil => intro ns _; cases ns <;> rfl
  | cons m ms' ih =>
      intro ns h
      cases ns with
      | nil => simp at h
      | cons n ns' =>
          simp only [List.length_cons] at h
          simp [batchLoopMA, ih (j + 1) ns' (by omega)]

lemma batchLoopMA_get?_eq (env : NumEnv) :
    ∀ (j i : ℕ) (ms : List CoeffInput) (ns : List String) (coeffs : CoeffInput) (name : String),
      ms.get? i = some coeffs → ns.get? i = some name →
      (batchLoopMA env j ms ns).get? i =
        some (batchEntryMAOf (j + i) name (invertibility_check env coeffs)) := by
  intro j i ms
  induction ms generalizing i j with
  | nil => intro ns coeffs name hm; simp at hm
  | cons m ms' ih =>
      intro ns coeffs name hm hn
      cases ns with
      | nil => simp at hn
      | cons n ns' =>
          cases i with
          | zero =>
              injection hm with hm
              injection hn with hn
              subst hm
              subst hn
              simp [batchLoopMA]
          | succ i' =>
              simp only [List.get?_cons_succ] at hm hn
              have hrec := ih (j + 1) i' ns' coeffs name hm hn
              have hj : j + (i' + 1) = (j + 1) + i' := by omega
              simp only [batchLoopMA, List.get?_cons_succ, hrec, hj]

lemma batch_stationarity_ok (env : NumEnv) (models : List CoeffInput)
    (names : List String) (h : names.length = models.length) :
    batch_stationarity_check env models (some names) = .ok (batchLoopAR env 0 models names) := by
  unfold batch_stationarity_check
  rw [Option.getD_some]
  rw [if_neg (by omega)]

lemma batch_invertibility_ok (env : NumEnv) (models : List CoeffInput)
    (names : List String) (h : names.length = models.length) :
    batch_invertibility_check env models (some names) = .ok (batchLoopMA env 0 models names) := by
  unfold batch_invertibility_check
  rw [Option.getD_some]
  rw [if_neg (by omega)]

/-! ## Claim C7 -/

/-- C7: the batch check raises a value error exactly on a length mismatch
between the explicit name list and the model list; otherwise it returns one
entry per input model, each successful item analyzed in place, and an
exception raised while analyzing one item is captured into that item's
entry as an error field without aborting the remaining items. -/
theorem claim_C7_batch_isolation (env : NumEnv) (models : List CoeffInput)
    (names : List String) :
    (names.length ≠ models.length →
      batch_stationarity_check env models (some names) =
        .error (.valueError "模型名称数量必须与模型数量相同")) ∧
    (names.length = models.length →
      ∃ entries, batch_stationarity_check env models (some names) = .ok entries ∧
        entries.length = models.length ∧
        (∀ i coeffs name, models.get? i = some coeffs → names.get? i = some name →
          entries.get? i = some (batchEntryAROf i name (stationarity_check env coeffs))) ∧
        (∀ i coeffs name e, models.get? i = some coeffs → names.get? i = some name →
          stationarity_check env coeffs = .error e →
          ∃ entry, entries.get? i = some entry ∧ entry.error = some e.msg)) := by
  constructor
  · intro h
    unfold batch_stationarity_check
    rw [Option.getD_some, if_pos h]
  · intro h
    refine ⟨batchLoopAR env 0 models names, batch_stationarity_ok env models names h,
      batchLoopAR_length env 0 models names h, ?_, ?_⟩
    · intro i coeffs name hm hn
      have := batchLoopAR_get?_eq env 0 i models names coeffs name hm hn
      rwa [Nat.zero_add] at this
    · intro i coeffs name e hm hn he
      have hg := batchLoopAR_get?_eq env 0 i models names coeffs name hm hn
      rw [Nat.zero_add, he] at hg
      exact ⟨batchEntryAROf i name (.error e), hg, rfl⟩

/-- Witness for C7: two models with one name raise the mismatch error; with
two names the batch returns two entries, the first (empty coefficients)
captured as a per-item error, the second analyzed normally. -/
theorem claim_C7_batch_isolation_witness :
    batch_stationarity_check envImpl [CoeffInput.list [], CoeffInput.list [some (1/2)]]
      (some ["A"]) = .error (.valueError "模型名称数量必须与模型数量相同") ∧
    (∃ entries,
      batch_stationarity_check envImpl [CoeffInput.list [], CoeffInput.list [some (1/2)]]
        (some ["A", "B"]) = .ok entries ∧
      entries.length = ([CoeffInput.list [], CoeffInput.list [some (1/2)]] : List CoeffInput).length ∧
      (∀ i coeffs name,
        ([CoeffInput.list [], CoeffInput.list [some (1/2)]] : List CoeffInput).get? i = some coeffs →
        (["A", "B"] : List String).get? i = some name →
        entries.get? i = some (batchEntryAROf i name (stationarity_check envImpl coeffs))) ∧
      (∀ i coeffs name e,
        ([CoeffInput.list [], CoeffInput.list [some (1/2)]] : List CoeffInput).get? i = some coeffs →
        (["A", "B"] : List String).get? i = some name →
        stationarity_check envImpl coeffs = .error e →
        ∃ entry, entries.get? i = some entry ∧ entry.error = some e.msg)) :=
  ⟨(claim_C7_batch_isolation envImpl [CoeffInput.list [], CoeffInput.list [some (1/2)]]
      ["A"]).1 (by decide),
   (claim_C7_batch_isolation envImpl [CoeffInput.list [], CoeffInput.list [some (1/2)]]
      ["A", "B"]).2 rfl⟩

/-! ## Claim C10 -/

/-- C10: a batch item whose per-item analysis raises gets a report entry
with the verdict field set to `False` and the coefficients field set to
`None` (besides the captured error message), in both the stationarity and
the invertibility batch — so an errored item carries the same verdict value
as a genuinely non-stationary/non-invertible model and is distinguishable
only through the error field. -/
theorem claim_C10_error_entry_shape (env : NumEnv) (models : List CoeffInput)
    (names : List String) (h : names.length = models.length) :
    (∀ entries, batch_stationarity_check env models (some names) = .ok entries →
      ∀ i coeffs name e, models.get? i = some coeffs → names.get? i = some name →
        stationarity_check env coeffs = .error e →
        ∃ entry, entries.get? i = some entry ∧
          entry.is_stationary = false ∧ entry.coefficients = none ∧
          entry.error = some e.msg ∧ entry.result = none) ∧
    (∀ entries, batch_invertibility_check env models (some names) = .ok entries →
      ∀ i coeffs name e, models.get? i = some coeffs → names.get? i = some name →
        invertibility_check env coeffs = .error e →
        ∃ entry, entries.get? i = some entry ∧
          entry.is_invertible = false ∧ entry.coefficients = none ∧
          entry.error = some e.msg ∧ entry.result = none) := by
  constructor
  · intro entries hb i coeffs name e hm hn he
    rw [batch_stationarity_ok env models names h] at hb
    injection hb with hb
    subst hb
    have hg := batchLoopAR_get?_eq env 0 i models names coeffs name hm hn
    rw [Nat.zero_add, he] at hg
    exact ⟨batchEntryAROf i name (.error e), hg, rfl, rfl, rfl, rfl⟩
  · intro entries hb i coeffs name e hm hn he
    rw [batch_invertibility_ok env models names h] at hb
    injection hb with hb
    subst hb
    have hg := batchLoopMA_get?_eq env 0 i models names coeffs name hm hn
    rw [Nat.zero_add, he] at hg
    exact ⟨batchEntryMAOf i name (.error e), hg, rfl, rfl, rfl, rfl⟩

/-- Witness for C10: the scalar (non-sequence) item in position 0 errors and
its AR entry has verdict `false`, coefficients `none` and the captured
type-error message. -/
theorem claim_C10_error_entry_shape_witness :
    ∃ entry, (batchLoopAR envImpl 0 [CoeffInput.scalar] ["A"]).get? 0 = some entry ∧
      entry.is_stationary = false ∧ entry.coefficients = none ∧
      entry.error = some (PyError.typeError "AR系数必须是列表或numpy数组").msg ∧
      entry.result = none := by
  have h := (claim_C10_error_entry_shape envImpl [CoeffInput.scalar] ["A"] rfl).1
    (batchLoopAR envImpl 0 [CoeffInput.scalar] ["A"])
    (batch_stationarity_ok envImpl [CoeffInput.scalar] ["A"] rfl)
    0 CoeffInput.scalar "A" (PyError.typeError "AR系数必须是列表或numpy数组") rfl rfl rfl
  exact h

/-! ## Sortedness helpers for the comparison layer -/

lemma mem_of_getLast?_eq {α : Type} : ∀ {l : List α} {a : α}, l.getLast? = some a → a ∈ l := by
  intro l
  induction l with
  | nil => intro a h; cases h
  | cons x t ih =>
      intro a h
      cases t with
      | nil =>
          injection h with h
          subst h
          exact List.mem_cons_self _ _
      | cons y t' =>
          rw [List.getLast?_cons_cons] at h
          exact List.mem_cons_of_mem _ (ih h)

lemma sorted_rel_getLast {α : Type} {r : α → α → Prop} :
    ∀ {l : List α}, l.Sorted r → ∀ a ∈ l, ∀ w, l.getLast? = some w → a = w ∨ r a w := by
  intro l
  induction l with
  | nil => intro _ a ha; cases ha
  | cons x t ih =>
      intro hs a ha w hw
      cases t with
      | nil =>
          injection hw with hw
          subst hw
          rcases List.mem_cons.mp ha with rfl | h'
          · exact Or.inl rfl
          · cases h'
      | cons y t' =>
          rw [List.getLast?_cons_cons] at hw
          rcases List.mem_cons.mp ha with rfl | ha'
          · have hwmem : w ∈ y :: t' := mem_of_getLast?_eq hw
            exact Or.inr (List.rel_of_sorted_cons hs w hwmem)
          · exact ih hs.of_cons a ha' w hw

lemma defaultNames_length (n : ℕ) : (defaultNames n).length = n := by
  simp [defaultNames]

lemma batch_invertibility_none_ok (env : NumEnv) (models : List CoeffInput) :
    batch_invertibility_check env models none =
      .ok (batchLoopMA env 0 models (defaultNames models.length)) := by
  unfold batch_invertibility_check
  rw [Option.getD_none, if_neg]
  simp [defaultNames_length]

/-! ## Claim C8 -/

/-- C8: the comparison operation ranks all successfully-analyzed models
(the entries carrying a margin) by margin in descending order with ties kept
in input order (stable sort), exposes the ranking's head as `best_model` and
its last element as `worst_model` — so the best has maximal and the worst
minimal margin among valid entries — and an empty batch yields rate 0 and
null best/worst rather than an error. -/
theorem claim_C8_comparison_ranking (env : NumEnv) (models : List CoeffInput) :
    ∃ results comp,
      batch_invertibility_check env models none = .ok results ∧
      compare_ma_models env models none = .ok comp ∧
      comp.best_model = (maRank results).head? ∧
      comp.worst_model = (maRank results).getLast? ∧
      (maRank results).Sorted maDesc ∧
      (maRank results).Perm (maValidResults results) ∧
      (∀ a b, List.Sublist [a, b] (maValidResults results) → maKey a = maKey b →
        List.Sublist [a, b] (maRank results)) ∧
      (∀ e ∈ maValidResults results, ∀ b, comp.best_model = some b → maKey e ≤ maKey b) ∧
      (∀ e ∈ maValidResults results, ∀ w, comp.worst_model = some w → maKey w ≤ maKey e) ∧
      (models = [] → comp.invertibility_rate = 0 ∧ comp.best_model = none ∧
        comp.worst_model = none) := by
  refine ⟨batchLoopMA env 0 models (defaultNames models.length),
    comparisonOfResults (batchLoopMA env 0 models (defaultNames models.length)),
    batch_invertibility_none_ok env models, ?_, rfl, rfl, ?_, ?_, ?_, ?_, ?_, ?_⟩
  · show (batch_invertibility_check env models none).map comparisonOfResults = _
    rw [batch_invertibility_none_ok env models]
    rfl
  · exact List.sorted_insertionSort maDesc _
  · exact List.perm_insertionSort maDesc _
  · intro a b hsub heq
    exact List.pair_sublist_insertionSort (le_of_eq (by rw [heq])) hsub
  · intro e he b hb
    have hsorted : (maRank (batchLoopMA env 0 models (defaultNames models.length))).Sorted maDesc :=
      List.sorted_insertionSort maDesc _
    have hmem : e ∈ maRank (batchLoopMA env 0 models (defaultNames models.length)) :=
      ((List.perm_insertionSort maDesc _).mem_iff).mpr he
    have hb2 : (maRank (batchLoopMA env 0 models (defaultNames models.length))).head? =
        some b := hb
    rcases hrank : maRank (batchLoopMA env 0 models (defaultNames models.length)) with _ | ⟨x, t⟩
    · rw [hrank] at hmem
      cases hmem
    · rw [hrank] at hb2 hmem hsorted
      simp only [List.head?_cons] at hb2
      injection hb2 with hb2
      subst hb2
      rcases List.mem_cons.mp hmem with rfl | hmem'
      · exact le_refl _
      · exact List.rel_of_sorted_cons hsorted e hmem'
  · intro e he w hw
    have hsorted : (maRank (batchLoopMA env 0 models (defaultNames models.length))).Sorted maDesc :=
      List.sorted_insertionSort maDesc _
    have hmem : e ∈ maRank (batchLoopMA env 0 models (defaultNames models.length)) :=
      ((List.perm_insertionSort maDesc _).mem_iff).mpr he
    have hw2 : (maRank (batchLoopMA env 0 models (defaultNames models.length))).getLast? =
        some w := hw
    rcases sorted_rel_getLast hsorted e hmem w hw2 with rfl | hrel
    · exact le_refl _
    · exact hrel
  · intro h
    subst h
    exact ⟨rfl, rfl, rfl⟩

/-- Witness for C8 at the concrete MA batch `[[0.5], [1.1]]` with the
executable oracle. -/
theorem claim_C8_comparison_ranking_witness :
    ∃ results comp,
      batch_invertibility_check envImpl
        [CoeffInput.list [some (1/2)], CoeffInput.list [some (11/10)]] none = .ok results ∧
      compare_ma_models envImpl
        [CoeffInput.list [some (1/2)], CoeffInput.list [some (11/10)]] none = .ok comp ∧
      comp.best_model = (maRank results).head? ∧
      comp.worst_model = (maRank results).getLast? ∧
      (maRank results).Sorted maDesc ∧
      (maRank results).Perm (maValidResults results) ∧
      (∀ a b, List.Sublist [a, b] (maValidResults results) → maKey a = maKey b →
        List.Sublist [a, b] (maRank results)) ∧
      (∀ e ∈ maValidResults results, ∀ b, comp.best_model = some b → maKey e ≤ maKey b) ∧
      (∀ e ∈ maValidResults results, ∀ w, comp.worst_model = some w → maKey w ≤ maKey e) ∧
      ([CoeffInput.list [some (1/2)], CoeffInput.list [some (11/10)]] = ([] : List CoeffInput) →
        comp.invertibility_rate = 0 ∧ comp.best_model = none ∧ comp.worst_model = none) :=
  claim_C8_comparison_ranking envImpl
    [CoeffInput.list [some (1/2)], CoeffInput.list [some (11/10)]]

end TSDiag
